import Mathlib

/-!
A verification development for the data-preparation pipeline in
`src/data_cleaning.py`.  Tables are embedded as lists of records, raw CSV
cells as an inductive value type, pandas missing values (NaN) as `none` or
`Val.null`, and the fallible numpy reductions as `Option`-valued functions.
-/

namespace DataCleaning

/-- A raw cell of an input table: an integer, a string, or a missing value
(pandas NaN). -/
inductive Val where
  | int (n : Int)
  | str (s : String)
  | null
  deriving DecidableEq

/-- The integer value of a list of decimal digit characters. -/
def digitsVal (cs : List Char) : Int :=
  cs.foldl (fun a c => a * 10 + ((c.toNat - 48 : Nat) : Int)) 0

/-- Python `str.split(sep)` for a one-character separator. -/
def pySplit (sep : Char) : List Char → List (List Char)
  | [] => [[]]
  | c :: rest =>
    let r := pySplit sep rest
    if c = sep then [] :: r
    else
      match r with
      | h :: t => (c :: h) :: t
      | [] => [[c]]

/-- Python `str.strip()`: surrounding whitespace removed. -/
def pyTrim (cs : List Char) : List Char :=
  ((cs.dropWhile Char.isWhitespace).reverse.dropWhile Char.isWhitespace).reverse

/-- Python `int(s)`: optional surrounding whitespace, an optional sign, then a
nonempty run of decimal digits; anything else raises, modelled as `none`. -/
def pyInt (s : String) : Option Int :=
  match pyTrim s.toList with
  | [] => none
  | '-' :: rest =>
    if !rest.isEmpty && rest.all Char.isDigit then some (-(digitsVal rest)) else none
  | '+' :: rest =>
    if !rest.isEmpty && rest.all Char.isDigit then some (digitsVal rest) else none
  | cs =>
    if cs.all Char.isDigit then some (digitsVal cs) else none

/-- `pd.to_numeric(cell, errors="coerce")` on a string cell followed by
`astype(int)`: an optional sign, integer digits, an optional fractional part
(with at least one digit overall); the fractional part is truncated toward
zero by the integer cast.  An unparseable string becomes NaN, modelled `none`. -/
def pdNumStr (s : String) : Option Int :=
  let sb :=
    match pyTrim s.toList with
    | '-' :: cs => ((-1 : Int), cs)
    | '+' :: cs => ((1 : Int), cs)
    | cs => ((1 : Int), cs)
  match pySplit '.' sb.2 with
  | [a] =>
    if !a.isEmpty && a.all Char.isDigit then some (sb.1 * digitsVal a) else none
  | [a, b] =>
    if (!a.isEmpty || !b.isEmpty) && a.all Char.isDigit && b.all Char.isDigit then
      some (sb.1 * digitsVal a)
    else none
  | _ => none

/-- Integer coercion of one identifier cell, as performed by the pattern
`df[c] = pd.to_numeric(df[c], errors="coerce").dropna().astype(int)`: the
dropped entries are reintroduced as NaN when the shortened series is assigned
back to the column (pandas index realignment), so the row is retained and the
failed cell is `none`. -/
def toNumericInt : Val → Option Int
  | .int n => some n
  | .str s => pdNumStr s
  | .null => none

/-- `convert_game_clock_to_seconds` (src/data_cleaning.py lines 73 to 79):
split on ":", unpack into minutes and seconds, convert both with Python
`int`; every failure is caught by the bare except and returns `np.nan`,
modelled `none`.  A missing cell (`none`) raises inside `split` and is
likewise caught. -/
def convert_game_clock_to_seconds : Option String → Option Int
  | none => none
  | some s =>
    match (pySplit ':' s.toList).map String.mk with
    | [p, q] =>
      match pyInt p, pyInt q with
      | some a, some b => some (a * 60 + b)
      | _, _ => none
    | _ => none

/-! ## Stage row types -/

/-- The boolean-like isDropback cell: a genuine boolean, a string, or NaN. -/
inductive DropVal where
  | bool (b : Bool)
  | str (s : String)
  | null
  deriving DecidableEq

/-- A row of players.csv as read for position filtering. -/
structure PlayersRow where
  nflId : Val
  position : Val
  deriving DecidableEq

/-- A raw tracking row, before ingestion filtering. -/
structure TrackRaw where
  gameId : Val
  playId : Val
  nflId : Val
  frameType : Val
  deriving DecidableEq

/-- A tracking row after ingestion: coerced identifiers (a failed coercion is
a retained NaN cell, see `toNumericInt`) and the integer week tag. -/
structure TrackRow where
  gameId : Option Int
  playId : Option Int
  nflId : Option Int
  frameType : Val
  week : Int
  deriving DecidableEq

/-- A row of plays.csv as read by `filter_for_pass_plays`. -/
structure PlayRow where
  gameId : Val
  playId : Val
  isDropback : DropVal
  deriving DecidableEq

/-- A row of plays.csv projected by `merge_with_plays` to the relevant
columns. -/
structure PlayCtxRaw where
  gameId : Val
  playId : Val
  quarter : Val
  down : Val
  yardsToGo : Val
  yardlineSide : Val
  yardlineNumber : Val
  gameClock : Val
  absoluteYardlineNumber : Val
  deriving DecidableEq

/-- The projected play row with the join keys integer-coerced (lines 56 to
57 of the source). -/
structure PlayCtx where
  gameId : Option Int
  playId : Option Int
  quarter : Val
  down : Val
  yardsToGo : Val
  yardlineSide : Val
  yardlineNumber : Val
  gameClock : Val
  absoluteYardlineNumber : Val
  deriving DecidableEq

/-- A tracking row after the left join with play context. -/
structure MergedRow where
  gameId : Option Int
  playId : Option Int
  nflId : Option Int
  frameType : Val
  week : Int
  quarter : Val
  down : Val
  yardsToGo : Val
  yardlineSide : Val
  yardlineNumber : Val
  gameClock : Val
  absoluteYardlineNumber : Val
  deriving DecidableEq

/-- A row of player_play.csv. -/
structure PlayerPlayRaw where
  gameId : Val
  playId : Val
  nflId : Val
  routeRan : Val
  deriving DecidableEq

/-- An output row of `filter_player_play_data`: exactly the four projected
columns. -/
structure RouteRow where
  gameId : Option Int
  playId : Option Int
  nflId : Option Int
  routeRan : Val
  deriving DecidableEq

/-! ## Stage functions -/

/-- First-occurrence deduplication, the semantics of pandas `Series.unique`. -/
def uniqueFirst [DecidableEq β] (seen : List β) : List β → List β
  | [] => []
  | x :: xs => if x ∈ seen then uniqueFirst seen xs else x :: uniqueFirst (x :: seen) xs

/-- pandas `Series.unique`. -/
def pdUnique [DecidableEq β] (l : List β) : List β :=
  uniqueFirst [] l

/-- `filter_players_by_position` (lines 9 to 16): keep roster rows whose
position is in the valid set, coerce the nflId column (a failed coercion
leaves a NaN entry in the retained row, by the realignment described at
`toNumericInt`), and return the unique values of the column. -/
def filter_players_by_position (valid_positions : List String)
    (players : List PlayersRow) : List (Option Int) :=
  let filtered := players.filter (fun r =>
    match r.position with
    | .str p => valid_positions.contains p
    | _ => false)
  pdUnique (filtered.map (fun r => toNumericInt r.nflId))

/-- The ingestion predicate of line 27: nflId is in the valid identifier
array (pandas `isin`: a NaN cell matches a NaN entry of the array, a string
cell never matches an integer entry) and frameType is BEFORE_SNAP or SNAP. -/
def keepTrackRow (valid : List (Option Int)) (r : TrackRaw) : Bool :=
  (match r.nflId with
   | .int n => valid.contains (some n)
   | .null => valid.contains none
   | .str _ => false) &&
  (r.frameType == .str "BEFORE_SNAP" || r.frameType == .str "SNAP")

/-- `filter_tracking_data` (lines 18 to 37): each week file is read in
blocks; each block is filtered by `keepTrackRow`, the identifier columns are
coerced (rows retained, see `toNumericInt`), surviving rows get the integer
week tag, and blocks then weeks are concatenated in order. -/
def filter_tracking_data (valid : List (Option Int))
    (weeks : List (Int × List (List TrackRaw))) : List TrackRow :=
  weeks.flatMap (fun wk =>
    wk.2.flatMap (fun chunk =>
      (chunk.filter (keepTrackRow valid)).map (fun r =>
        { gameId := toNumericInt r.gameId
          playId := toNumericInt r.playId
          nflId := toNumericInt r.nflId
          frameType := r.frameType
          week := wk.1 })))

/-- Python `str.upper()` (ASCII, as produced by `.astype(str).str.upper()`). -/
def pyUpper (s : String) : String :=
  String.mk (s.toList.map Char.toUpper)

/-- The normalization chain of line 43: `replace({True: "TRUE", False:
"FALSE"})`, then `fillna("FALSE")`, then `astype(str).str.upper()`. -/
def normalizeIsDropback : DropVal → String
  | .bool true => "TRUE"
  | .bool false => "FALSE"
  | .null => "FALSE"
  | .str s => pyUpper s

/-- `filter_for_pass_plays` (lines 39 to 49): select play rows whose
normalized isDropback equals "TRUE", coerce their keys (rows retained, see
`toNumericInt`), and inner-join the tracking table against the resulting key
pairs (pandas merge semantics: a NaN key matches a NaN key, and a tracking
row is emitted once per matching key row). -/
def filter_for_pass_plays (plays : List PlayRow) (tracking : List TrackRow) :
    List TrackRow :=
  let dropback_play_ids :=
    (plays.filter (fun p => normalizeIsDropback p.isDropback == "TRUE")).map
      (fun p => (toNumericInt p.gameId, toNumericInt p.playId))
  tracking.flatMap (fun r =>
    (dropback_play_ids.filter (fun k => decide (k = (r.gameId, r.playId)))).map
      (fun _ => r))

/-- The key coercion of lines 56 to 57. -/
def coercePlayCtx (p : PlayCtxRaw) : PlayCtx :=
  { gameId := toNumericInt p.gameId, playId := toNumericInt p.playId,
    quarter := p.quarter, down := p.down, yardsToGo := p.yardsToGo,
    yardlineSide := p.yardlineSide, yardlineNumber := p.yardlineNumber,
    gameClock := p.gameClock, absoluteYardlineNumber := p.absoluteYardlineNumber }

/-- One merged row: the tracking fields plus the context of a matched play
row, or NaN context when the tracking row matched no play row. -/
def mkMerged (r : TrackRow) : Option PlayCtx → MergedRow
  | some p =>
    { gameId := r.gameId, playId := r.playId, nflId := r.nflId,
      frameType := r.frameType, week := r.week,
      quarter := p.quarter, down := p.down, yardsToGo := p.yardsToGo,
      yardlineSide := p.yardlineSide, yardlineNumber := p.yardlineNumber,
      gameClock := p.gameClock, absoluteYardlineNumber := p.absoluteYardlineNumber }
  | none =>
    { gameId := r.gameId, playId := r.playId, nflId := r.nflId,
      frameType := r.frameType, week := r.week,
      quarter := .null, down := .null, yardsToGo := .null,
      yardlineSide := .null, yardlineNumber := .null,
      gameClock := .null, absoluteYardlineNumber := .null }

/-- `merge_with_plays` (lines 51 to 60): project plays.csv to the relevant
columns, coerce the keys, and left-join the tracking table on (gameId,
playId): each tracking row is emitted once per matching play row, or once
with NaN context when no play row matches. -/
def merge_with_plays (plays : List PlayCtxRaw) (tracking : List TrackRow) :
    List MergedRow :=
  let plays_df := plays.map coercePlayCtx
  tracking.flatMap (fun r =>
    match plays_df.filter (fun p => decide (p.gameId = r.gameId ∧ p.playId = r.playId)) with
    | [] => [mkMerged r none]
    | ms => ms.map (fun p => mkMerged r (some p)))

/-- `filter_player_play_data` (lines 62 to 71): coerce the three identifier
columns (rows retained, failed cells NaN), keep the rows whose routeRan is
non-null, and project to exactly (gameId, playId, nflId, routeRan). -/
def filter_player_play_data (rows : List PlayerPlayRaw) : List RouteRow :=
  ((rows.map (fun r =>
      ({ gameId := toNumericInt r.gameId, playId := toNumericInt r.playId,
         nflId := toNumericInt r.nflId, routeRan := r.routeRan } : RouteRow))).filter
    (fun r => !(r.routeRan == .null)))

/-! ## The spatial distance engine -/

/-- A row of the table handed to `calculate_player_distances`: the three
group-key columns, the player identifier and the coordinates. -/
structure DRow (α : Type) where
  gameId : Int
  playId : Int
  frameId : Int
  nflId : Int
  x : α
  y : α

/-- One summary dict appended by the engine (lines 93 to 102). -/
structure DSum (α : Type) where
  gameId : Int
  playId : Int
  frameId : Int
  nflId : Int
  min_distance : α
  max_distance : α
  mean_distance : α
  std_distance : α

/-- `np.min` of a list: the reduction of an empty list raises, modelled
`none`. -/
def npMin {α : Type} [Min α] : List α → Option α
  | [] => none
  | x :: xs => some (xs.foldl min x)

/-- `np.max` of a list: the reduction of an empty list raises, modelled
`none`. -/
def npMax {α : Type} [Max α] : List α → Option α
  | [] => none
  | x :: xs => some (xs.foldl max x)

section Engine

variable {α : Type} [LinearOrderedField α]

/-- `np.mean` of a list: the sum divided by the length. -/
def npMean (l : List α) : α :=
  l.sum / (l.length : α)

/-- `np.std` of a list: the square root of the mean squared deviation from
the mean (population standard deviation, the numpy default). -/
def npStd (sqrt : α → α) (l : List α) : α :=
  sqrt ((l.map (fun d => (d - npMean l) ^ 2)).sum / (l.length : α))

/-- The pairwise Euclidean distance of line 91. -/
def distance (sqrt : α → α) (p q : DRow α) : α :=
  sqrt ((p.x - q.x) ^ 2 + (p.y - q.y) ^ 2)

/-- The groupby key of a row. -/
def keyOf (r : DRow α) : Int × Int × Int :=
  (r.gameId, r.playId, r.frameId)

/-- The summary appended for one player (lines 93 to 102): `np.min` of an
empty distance list raises, aborting the computation, so the result is an
`Option`. -/
def mkSummary (sqrt : α → α) (k : Int × Int × Int) (p : DRow α)
    (others : List (DRow α)) : Option (DSum α) :=
  let ds := others.map (distance sqrt p)
  match npMin ds, npMax ds with
  | some mn, some mx =>
    some { gameId := k.1, playId := k.2.1, frameId := k.2.2, nflId := p.nflId,
           min_distance := mn, max_distance := mx,
           mean_distance := npMean ds, std_distance := npStd sqrt ds }
  | _, _ => none

/-- The loop over the players of one group (lines 85 to 102): the row for
the player at position i uses the distances to every other row of the
group, in group order (`prev` are the rows before position i). -/
def rowsFor (sqrt : α → α) (k : Int × Int × Int) :
    List (DRow α) → List (DRow α) → Option (List (DSum α))
  | _, [] => some []
  | prev, p :: rest =>
    match mkSummary sqrt k p (prev ++ rest), rowsFor sqrt k (prev ++ [p]) rest with
    | some s, some ss => some (s :: ss)
    | _, _ => none

/-- Ascending lexicographic order on group keys, the group order of pandas
groupby. -/
def keyLe (a b : Int × Int × Int) : Bool :=
  decide (a.1 < b.1) || (a.1 == b.1 &&
    (decide (a.2.1 < b.2.1) || (a.2.1 == b.2.1 && decide (a.2.2 ≤ b.2.2))))

/-- Ordered insertion of a group key. -/
def insertKey (a : Int × Int × Int) : List (Int × Int × Int) → List (Int × Int × Int)
  | [] => [a]
  | b :: bs => if keyLe a b then a :: b :: bs else b :: insertKey a bs

/-- Sorting of the unique group keys, the ascending key order of pandas
groupby. -/
def sortKeys : List (Int × Int × Int) → List (Int × Int × Int)
  | [] => []
  | a :: as => insertKey a (sortKeys as)

/-- The sorted unique keys of `df.groupby(["gameId", "playId", "frameId"])`. -/
def groupKeys (df : List (DRow α)) : List (Int × Int × Int) :=
  sortKeys (pdUnique (df.map keyOf))

/-- The rows of the table belonging to group k, in table order. -/
def groupOf (df : List (DRow α)) (k : Int × Int × Int) : List (DRow α) :=
  df.filter (fun r => decide (keyOf r = k))

/-- The outer loop over groups (line 83): group results are appended in key
order; an exception in any group aborts the whole computation. -/
def calcGroups (sqrt : α → α) (df : List (DRow α)) :
    List (Int × Int × Int) → Option (List (DSum α))
  | [] => some []
  | k :: ks =>
    match rowsFor sqrt k [] (groupOf df k), calcGroups sqrt df ks with
    | some g, some rest => some (g ++ rest)
    | _, _ => none

/-- `calculate_player_distances` (lines 81 to 103). -/
def calculate_player_distances (sqrt : α → α) (df : List (DRow α)) :
    Option (List (DSum α)) :=
  calcGroups sqrt df (groupKeys df)

end Engine

/-- The statistics the spec requires of one emitted row: the four values are
the minimum, the maximum, the arithmetic mean and the population standard
deviation of the multiset ds of distances from the player to the other group
members.  Modelled from the spec sentence of section 4.6. -/
def SpecSummary (k : Int × Int × Int) (p : DRow ℝ) (ds : Multiset ℝ)
    (row : DSum ℝ) : Prop :=
  row.gameId = k.1 ∧ row.playId = k.2.1 ∧ row.frameId = k.2.2 ∧
  row.nflId = p.nflId ∧
  row.min_distance ∈ ds ∧ (∀ d ∈ ds, row.min_distance ≤ d) ∧
  row.max_distance ∈ ds ∧ (∀ d ∈ ds, d ≤ row.max_distance) ∧
  row.mean_distance = ds.sum / (Multiset.card ds : ℝ) ∧
  row.std_distance =
    Real.sqrt ((ds.map (fun d => (d - ds.sum / (Multiset.card ds : ℝ)) ^ 2)).sum /
      (Multiset.card ds : ℝ))

/-- The spec multiset of distances for the player at position i of a group:
the distance from that player to each other row of the group. -/
noncomputable def specDistances (g : List (DRow ℝ)) (i : Nat) (hi : i < g.length) : Multiset ℝ :=
  (((g.eraseIdx i).map (distance Real.sqrt (g.get ⟨i, hi⟩)) : List ℝ) : Multiset ℝ)

/-- Fixture: a two-player group forming a 3-4-5 triangle. -/
noncomputable def dfW : List (DRow ℝ) :=
  [{ gameId := 1, playId := 1, frameId := 1, nflId := 10, x := 0, y := 0 },
   { gameId := 1, playId := 1, frameId := 1, nflId := 11, x := 3, y := 4 }]

/-! ## Clock conversion lemmas -/

theorem convert_parts (s p q : String) (a b : Int)
    (h1 : (pySplit ':' s.toList).map String.mk = [p, q])
    (h2 : pyInt p = some a) (h3 : pyInt q = some b) :
    convert_game_clock_to_seconds (some s) = some (a * 60 + b) := by
  have h1a : List.map String.mk (pySplit ':' s.data) = [p, q] := h1
  simp [convert_game_clock_to_seconds, h1a, h2, h3]

theorem convert_fail_part (s p q : String)
    (h1 : (pySplit ':' s.toList).map String.mk = [p, q])
    (h2 : pyInt p = none ∨ pyInt q = none) :
    convert_game_clock_to_seconds (some s) = none := by
  have h1a : List.map String.mk (pySplit ':' s.data) = [p, q] := h1
  rcases h2 with h | h
  · cases hq : pyInt q <;> simp [convert_game_clock_to_seconds, h1a, h, hq]
  · cases hp : pyInt p <;> simp [convert_game_clock_to_seconds, h1a, h, hp]

theorem convert_fail_shape (s : String)
    (h : ((pySplit ':' s.toList).map String.mk).length ≠ 2) :
    convert_game_clock_to_seconds (some s) = none := by
  have h1 : (List.map String.mk (pySplit ':' s.data)).length ≠ 2 := h
  rcases hl : List.map String.mk (pySplit ':' s.data) with _ | ⟨x, _ | ⟨y, _ | ⟨z, t⟩⟩⟩
  · simp [convert_game_clock_to_seconds, hl]
  · simp [convert_game_clock_to_seconds, hl]
  · rw [hl] at h1; simp at h1
  · simp [convert_game_clock_to_seconds, hl]

/-- Claim C4: a clock string splitting into two integer-parsing parts maps to
minutes times sixty plus seconds; every other input (wrong shape, a part that
does not parse, a missing cell) yields a missing value, so the conversion is
total and never aborts. -/
theorem clock_conversion_spec :
    (∀ (s p q : String) (a b : Int), (pySplit ':' s.toList).map String.mk = [p, q] →
      pyInt p = some a → pyInt q = some b →
      convert_game_clock_to_seconds (some s) = some (a * 60 + b)) ∧
    (∀ s p q : String, (pySplit ':' s.toList).map String.mk = [p, q] →
      pyInt p = none ∨ pyInt q = none → convert_game_clock_to_seconds (some s) = none) ∧
    (∀ s : String, ((pySplit ':' s.toList).map String.mk).length ≠ 2 →
      convert_game_clock_to_seconds (some s) = none) ∧
    convert_game_clock_to_seconds none = none ∧
    convert_game_clock_to_seconds (some "15:00") = some 900 ∧
    convert_game_clock_to_seconds (some "00:45") = some 45 ∧
    convert_game_clock_to_seconds (some "2:5") = some 125 ∧
    convert_game_clock_to_seconds (some "") = none ∧
    convert_game_clock_to_seconds (some "bad") = none :=
  ⟨convert_parts, convert_fail_part, convert_fail_shape, rfl,
    by decide, by decide, by decide, by decide, by decide⟩

/-- Claim C4 witness: the conversion evaluated at "15:00". -/
theorem clock_conversion_spec_witness :
    (pySplit ':' "15:00".toList).map String.mk = ["15", "00"] ∧
    pyInt "15" = some 15 ∧ pyInt "00" = some 0 ∧
    convert_game_clock_to_seconds (some "15:00") = some (15 * 60 + 0) :=
  ⟨by decide, by decide, by decide,
    clock_conversion_spec.1 "15:00" "15" "00" 15 0 (by decide) (by decide) (by decide)⟩

/-- Claim C10: the conversion validates no numeric range: any string with
exactly one colon whose parts parse as (possibly negative) integers a and b
yields a times sixty plus b, even out of clock range. -/
theorem clock_no_range_validation :
    (∀ (s p q : String) (a b : Int), (pySplit ':' s.toList).map String.mk = [p, q] →
      pyInt p = some a → pyInt q = some b →
      convert_game_clock_to_seconds (some s) = some (a * 60 + b)) ∧
    convert_game_clock_to_seconds (some "0:99") = some 99 ∧
    convert_game_clock_to_seconds (some "-1:30") = some (-30) ∧
    convert_game_clock_to_seconds (some "10:75") = some 675 :=
  ⟨convert_parts, by decide, by decide, by decide⟩

/-- Claim C10 witness: the conversion evaluated at "0:99". -/
theorem clock_no_range_validation_witness :
    (pySplit ':' "0:99".toList).map String.mk = ["0", "99"] ∧
    pyInt "0" = some 0 ∧ pyInt "99" = some 99 ∧
    convert_game_clock_to_seconds (some "0:99") = some (0 * 60 + 99) :=
  ⟨by decide, by decide, by decide,
    clock_no_range_validation.1 "0:99" "0" "99" 0 99 (by decide) (by decide) (by decide)⟩

/-! ## Relational stage theorems -/

/-- Claim C2 (code evidence): a row whose identifier fails integer coercion
is not absent from the coercing stage's output.  `filter_tracking_data`
retains the row with a NaN gameId, and `filter_players_by_position` emits a
NaN entry for an uncoercible nflId, because assigning the `dropna()` result
back to the column realigns on the index and refills the dropped entries
with NaN. -/
theorem uncoercible_identifier_row_retained :
    filter_tracking_data [some 7]
        [(1, [[{ gameId := .str "abc", playId := .int 5, nflId := .int 7,
                 frameType := .str "SNAP" }]])] =
      [{ gameId := none, playId := some 5, nflId := some 7,
         frameType := .str "SNAP", week := 1 }] ∧
    filter_players_by_position ["QB"]
        [{ nflId := .str "abc", position := .str "QB" }] = [none] := by
  constructor <;> decide

/-- Claim C6: a row survives tracking ingestion iff its nflId passes the
valid-identifier membership test and its frameType is BEFORE_SNAP or SNAP;
every surviving row carries the integer week tag of its source week, and no
other frameType value appears in the ingested table. -/
theorem tracking_ingest_spec (valid : List (Option Int))
    (weeks : List (Int × List (List TrackRaw))) :
    (∀ r : TrackRow, r ∈ filter_tracking_data valid weeks ↔
      ∃ wk ∈ weeks, ∃ chunk ∈ wk.2, ∃ raw ∈ chunk,
        keepTrackRow valid raw = true ∧
        r = { gameId := toNumericInt raw.gameId, playId := toNumericInt raw.playId,
              nflId := toNumericInt raw.nflId, frameType := raw.frameType,
              week := wk.1 }) ∧
    (∀ r ∈ filter_tracking_data valid weeks,
      r.frameType = .str "BEFORE_SNAP" ∨ r.frameType = .str "SNAP") := by
  have hmem : ∀ r : TrackRow, r ∈ filter_tracking_data valid weeks ↔
      ∃ wk ∈ weeks, ∃ chunk ∈ wk.2, ∃ raw ∈ chunk,
        keepTrackRow valid raw = true ∧
        r = { gameId := toNumericInt raw.gameId, playId := toNumericInt raw.playId,
              nflId := toNumericInt raw.nflId, frameType := raw.frameType,
              week := wk.1 } := by
    intro r
    simp only [filter_tracking_data, List.mem_flatMap, List.mem_map, List.mem_filter]
    constructor
    · rintro ⟨wk, hwk, chunk, hchunk, raw, ⟨hraw, hkeep⟩, hr⟩
      exact ⟨wk, hwk, chunk, hchunk, raw, hraw, hkeep, hr.symm⟩
    · rintro ⟨wk, hwk, chunk, hchunk, raw, hraw, hkeep, hr⟩
      exact ⟨wk, hwk, chunk, hchunk, raw, ⟨hraw, hkeep⟩, hr.symm⟩
  refine ⟨hmem, ?_⟩
  intro r hr
  rcases (hmem r).mp hr with ⟨wk, _, chunk, _, raw, _, hkeep, hr⟩
  have hft : (raw.frameType == Val.str "BEFORE_SNAP" ||
      raw.frameType == Val.str "SNAP") = true := by
    simp only [keepTrackRow, Bool.and_eq_true] at hkeep
    exact hkeep.2
  subst hr
  simpa using hft

/-- Claim C6 witness: the characterization evaluated on one concrete week
file of one block with one surviving row. -/
theorem tracking_ingest_spec_witness :
    ({ gameId := some 1, playId := some 5, nflId := some 7,
       frameType := .str "SNAP", week := 1 } : TrackRow).frameType
        = Val.str "BEFORE_SNAP" ∨
    ({ gameId := some 1, playId := some 5, nflId := some 7,
       frameType := .str "SNAP", week := 1 } : TrackRow).frameType
        = Val.str "SNAP" :=
  (tracking_ingest_spec [some 7]
      [(1, [[{ gameId := .int 1, playId := .int 5, nflId := .int 7,
               frameType := .str "SNAP" }]])]).2
    { gameId := some 1, playId := some 5, nflId := some 7,
      frameType := .str "SNAP", week := 1 } (by decide)

/-- Claim C5 counterexample: the claim sends every non-boolean, non-missing
isDropback value to "FALSE", but the code only uppercases such a value: the
string cell "true" normalizes to "TRUE", and its play is kept as a pass
play, so the tracking row survives the filter. -/
theorem isDropback_string_true_kept :
    normalizeIsDropback (.str "true") = "TRUE" ∧
    ("TRUE" : String) ≠ "FALSE" ∧
    filter_for_pass_plays
        [{ gameId := .int 1, playId := .int 2, isDropback := .str "true" }]
        [{ gameId := some 1, playId := some 2, nflId := some 7,
           frameType := .str "SNAP", week := 1 }] =
      [{ gameId := some 1, playId := some 2, nflId := some 7,
         frameType := .str "SNAP", week := 1 }] :=
  ⟨by decide, by decide, by decide⟩

/-- Claim C5 (amended): the normalization maps boolean true and false to
"TRUE" and "FALSE", a missing value to "FALSE", and any other value to its
uppercased string form; the tracking table is then inner-joined on the
coerced keys of the play rows whose normalized value is "TRUE": a row is in
the output iff it is a tracking row and some play row with matching keys
normalizes to "TRUE". -/
theorem pass_play_filter_spec (plays : List PlayRow) (tracking : List TrackRow) :
    normalizeIsDropback (.bool true) = "TRUE" ∧
    normalizeIsDropback (.bool false) = "FALSE" ∧
    normalizeIsDropback .null = "FALSE" ∧
    (∀ s, normalizeIsDropback (.str s) = pyUpper s) ∧
    (∀ r : TrackRow, r ∈ filter_for_pass_plays plays tracking ↔
      r ∈ tracking ∧ ∃ p ∈ plays, normalizeIsDropback p.isDropback = "TRUE" ∧
        toNumericInt p.gameId = r.gameId ∧ toNumericInt p.playId = r.playId) := by
  refine ⟨rfl, rfl, rfl, fun _ => rfl, ?_⟩
  intro r
  simp only [filter_for_pass_plays, List.mem_flatMap, List.mem_map, List.mem_filter,
    decide_eq_true_eq, beq_iff_eq, Prod.mk.injEq]
  constructor
  · rintro ⟨r0, hr0, k, ⟨⟨p, ⟨hp, htrue⟩, hk⟩, hkeys⟩, hrr⟩
    subst hrr
    subst hkeys
    rw [Prod.mk.injEq] at hk
    exact ⟨hr0, p, hp, htrue, hk.1, hk.2⟩
  · rintro ⟨hr, p, hp, htrue, hg, hpl⟩
    exact ⟨r, hr, (toNumericInt p.gameId, toNumericInt p.playId),
      ⟨⟨p, ⟨hp, htrue⟩, rfl⟩, by simp [hg, hpl]⟩, rfl⟩

/-- Claim C5 witness: the membership characterization evaluated on one play
row and one tracking row. -/
theorem pass_play_filter_spec_witness :
    ({ gameId := some 1, playId := some 2, nflId := some 7,
       frameType := .str "SNAP", week := 1 } : TrackRow) ∈
      filter_for_pass_plays
        [{ gameId := .int 1, playId := .int 2, isDropback := .bool true }]
        [{ gameId := some 1, playId := some 2, nflId := some 7,
           frameType := .str "SNAP", week := 1 }] ↔
    ({ gameId := some 1, playId := some 2, nflId := some 7,
       frameType := .str "SNAP", week := 1 } : TrackRow) ∈
      [({ gameId := some 1, playId := some 2, nflId := some 7,
          frameType := .str "SNAP", week := 1 } : TrackRow)] ∧
    ∃ p ∈ [({ gameId := .int 1, playId := .int 2, isDropback := .bool true } : PlayRow)],
      normalizeIsDropback p.isDropback = "TRUE" ∧
      toNumericInt p.gameId = some 1 ∧ toNumericInt p.playId = some 2 :=
  (pass_play_filter_spec
      [{ gameId := .int 1, playId := .int 2, isDropback := .bool true }]
      [{ gameId := some 1, playId := some 2, nflId := some 7,
         frameType := .str "SNAP", week := 1 }]).2.2.2.2
    { gameId := some 1, playId := some 2, nflId := some 7,
      frameType := .str "SNAP", week := 1 }

/-- Claim C8: the play-context merge is a left join on (gameId, playId):
every tracking row appears in the merged output with its tracking fields
intact, and a tracking row matching no play row is emitted once with every
contextual field missing rather than being removed. -/
theorem play_context_left_join_spec (plays : List PlayCtxRaw)
    (tracking : List TrackRow) :
    (∀ r ∈ tracking, ∃ m ∈ merge_with_plays plays tracking,
      m.gameId = r.gameId ∧ m.playId = r.playId ∧ m.nflId = r.nflId ∧
      m.frameType = r.frameType ∧ m.week = r.week) ∧
    (∀ r ∈ tracking,
      (∀ p ∈ plays.map coercePlayCtx, ¬(p.gameId = r.gameId ∧ p.playId = r.playId)) →
        mkMerged r none ∈ merge_with_plays plays tracking ∧
        (mkMerged r none).quarter = Val.null ∧ (mkMerged r none).down = Val.null ∧
        (mkMerged r none).yardsToGo = Val.null ∧
        (mkMerged r none).yardlineSide = Val.null ∧
        (mkMerged r none).yardlineNumber = Val.null ∧
        (mkMerged r none).gameClock = Val.null ∧
        (mkMerged r none).absoluteYardlineNumber = Val.null) := by
  constructor
  · intro r hr
    rcases hflt : (plays.map coercePlayCtx).filter
        (fun p => decide (p.gameId = r.gameId ∧ p.playId = r.playId)) with _ | ⟨p, ps⟩
    · refine ⟨mkMerged r none, ?_, rfl, rfl, rfl, rfl, rfl⟩
      simp only [merge_with_plays, List.mem_flatMap]
      exact ⟨r, hr, by rw [hflt]; exact List.mem_singleton.mpr rfl⟩
    · refine ⟨mkMerged r (some p), ?_, rfl, rfl, rfl, rfl, rfl⟩
      simp only [merge_with_plays, List.mem_flatMap]
      refine ⟨r, hr, ?_⟩
      rw [hflt]
      exact List.mem_map_of_mem _ (List.mem_cons_self _ _)
  · intro r hr hnone
    have hflt : (plays.map coercePlayCtx).filter
        (fun p => decide (p.gameId = r.gameId ∧ p.playId = r.playId)) = [] := by
      rw [List.filter_eq_nil_iff]
      intro p hp
      simpa using hnone p hp
    refine ⟨?_, rfl, rfl, rfl, rfl, rfl, rfl, rfl⟩
    simp only [merge_with_plays, List.mem_flatMap]
    exact ⟨r, hr, by rw [hflt]; exact List.mem_singleton.mpr rfl⟩

/-- Claim C8 witness: the left join evaluated on one tracking row and an
empty play table. -/
theorem play_context_left_join_spec_witness :
    mkMerged { gameId := some 1, playId := some 2, nflId := some 7,
               frameType := .str "SNAP", week := 1 } none ∈
      merge_with_plays []
        [{ gameId := some 1, playId := some 2, nflId := some 7,
           frameType := .str "SNAP", week := 1 }] ∧
    (mkMerged { gameId := some 1, playId := some 2, nflId := some 7,
                frameType := .str "SNAP", week := 1 } none).quarter = Val.null ∧
    (mkMerged { gameId := some 1, playId := some 2, nflId := some 7,
                frameType := .str "SNAP", week := 1 } none).down = Val.null ∧
    (mkMerged { gameId := some 1, playId := some 2, nflId := some 7,
                frameType := .str "SNAP", week := 1 } none).yardsToGo = Val.null ∧
    (mkMerged { gameId := some 1, playId := some 2, nflId := some 7,
                frameType := .str "SNAP", week := 1 } none).yardlineSide = Val.null ∧
    (mkMerged { gameId := some 1, playId := some 2, nflId := some 7,
                frameType := .str "SNAP", week := 1 } none).yardlineNumber = Val.null ∧
    (mkMerged { gameId := some 1, playId := some 2, nflId := some 7,
                frameType := .str "SNAP", week := 1 } none).gameClock = Val.null ∧
    (mkMerged { gameId := some 1, playId := some 2, nflId := some 7,
                frameType := .str "SNAP", week := 1 } none).absoluteYardlineNumber
      = Val.null :=
  (play_context_left_join_spec []
      [{ gameId := some 1, playId := some 2, nflId := some 7,
         frameType := .str "SNAP", week := 1 }]).2
    { gameId := some 1, playId := some 2, nflId := some 7,
      frameType := .str "SNAP", week := 1 }
    (List.mem_singleton.mpr rfl) (by simp)

/-- Claim C9: a player-play row is retained iff its routeRan is non-null,
and each output row is exactly the projection to (gameId, playId, nflId,
routeRan) with the identifier columns coerced. -/
theorem route_record_filter_spec (rows : List PlayerPlayRaw) :
    ∀ r : RouteRow, r ∈ filter_player_play_data rows ↔
      ∃ raw ∈ rows, raw.routeRan ≠ Val.null ∧
        r = { gameId := toNumericInt raw.gameId, playId := toNumericInt raw.playId,
              nflId := toNumericInt raw.nflId, routeRan := raw.routeRan } := by
  intro r
  simp only [filter_player_play_data, List.mem_filter, List.mem_map,
    Bool.not_eq_eq_eq_not, Bool.not_true, beq_eq_false_iff_ne, ne_eq]
  constructor
  · rintro ⟨⟨raw, hraw, hr⟩, hnn⟩
    subst hr
    exact ⟨raw, hraw, hnn, rfl⟩
  · rintro ⟨raw, hraw, hnn, hr⟩
    subst hr
    exact ⟨⟨raw, hraw, rfl⟩, hnn⟩

/-- Claim C9 witness: the characterization evaluated on one row with a
non-null route. -/
theorem route_record_filter_spec_witness :
    ({ gameId := some 1, playId := some 2, nflId := some 7,
       routeRan := .str "GO" } : RouteRow) ∈
      filter_player_play_data
        [{ gameId := .int 1, playId := .int 2, nflId := .int 7,
           routeRan := .str "GO" }] ↔
    ∃ raw ∈ [({ gameId := .int 1, playId := .int 2, nflId := .int 7,
                routeRan := .str "GO" } : PlayerPlayRaw)],
      raw.routeRan ≠ Val.null ∧
      ({ gameId := some 1, playId := some 2, nflId := some 7,
         routeRan := .str "GO" } : RouteRow) =
        { gameId := toNumericInt raw.gameId, playId := toNumericInt raw.playId,
          nflId := toNumericInt raw.nflId, routeRan := raw.routeRan } :=
  route_record_filter_spec
    [{ gameId := .int 1, playId := .int 2, nflId := .int 7, routeRan := .str "GO" }]
    { gameId := some 1, playId := some 2, nflId := some 7, routeRan := .str "GO" }

/-! ## Distance engine lemmas -/

theorem foldl_min_le {γ : Type} [LinearOrder γ] (xs : List γ) (x : γ) :
    xs.foldl min x ≤ x ∧ ∀ y ∈ xs, xs.foldl min x ≤ y := by
  induction xs generalizing x with
  | nil => simp
  | cons a as ih =>
    refine ⟨le_trans (ih (min x a)).1 (min_le_left _ _), ?_⟩
    intro y hy
    rcases List.mem_cons.mp hy with rfl | hy
    · exact le_trans (ih _).1 (min_le_right _ _)
    · exact (ih (min x a)).2 y hy

theorem foldl_min_mem {γ : Type} [LinearOrder γ] (xs : List γ) (x : γ) :
    xs.foldl min x = x ∨ xs.foldl min x ∈ xs := by
  induction xs generalizing x with
  | nil => left; rfl
  | cons a as ih =>
    rcases ih (min x a) with h | h
    · rcases min_choice x a with hm | hm
      · left
        show as.foldl min (min x a) = x
        rw [h, hm]
      · right
        show as.foldl min (min x a) ∈ a :: as
        rw [h, hm]
        exact List.mem_cons_self _ _
    · right
      exact List.mem_cons_of_mem _ h

theorem npMin_spec {γ : Type} [LinearOrder γ] (l : List γ) (m : γ)
    (h : npMin l = some m) : m ∈ l ∧ ∀ y ∈ l, m ≤ y := by
  cases l with
  | nil => exact absurd h (by simp [npMin])
  | cons x xs =>
    have hm : xs.foldl min x = m := by simpa [npMin] using h
    subst hm
    constructor
    · rcases foldl_min_mem xs x with h1 | h1
      · rw [h1]; exact List.mem_cons_self _ _
      · exact List.mem_cons_of_mem _ h1
    · intro y hy
      rcases List.mem_cons.mp hy with rfl | hy
      · exact (foldl_min_le xs _).1
      · exact (foldl_min_le xs x).2 y hy

theorem foldl_max_ge {γ : Type} [LinearOrder γ] (xs : List γ) (x : γ) :
    x ≤ xs.foldl max x ∧ ∀ y ∈ xs, y ≤ xs.foldl max x := by
  induction xs generalizing x with
  | nil => simp
  | cons a as ih =>
    refine ⟨le_trans (le_max_left _ _) (ih (max x a)).1, ?_⟩
    intro y hy
    rcases List.mem_cons.mp hy with rfl | hy
    · exact le_trans (le_max_right _ _) (ih _).1
    · exact (ih (max x a)).2 y hy

theorem foldl_max_mem {γ : Type} [LinearOrder γ] (xs : List γ) (x : γ) :
    xs.foldl max x = x ∨ xs.foldl max x ∈ xs := by
  induction xs generalizing x with
  | nil => left; rfl
  | cons a as ih =>
    rcases ih (max x a) with h | h
    · rcases max_choice x a with hm | hm
      · left
        show as.foldl max (max x a) = x
        rw [h, hm]
      · right
        show as.foldl max (max x a) ∈ a :: as
        rw [h, hm]
        exact List.mem_cons_self _ _
    · right
      exact List.mem_cons_of_mem _ h

theorem npMax_spec {γ : Type} [LinearOrder γ] (l : List γ) (m : γ)
    (h : npMax l = some m) : m ∈ l ∧ ∀ y ∈ l, y ≤ m := by
  cases l with
  | nil => exact absurd h (by simp [npMax])
  | cons x xs =>
    have hm : xs.foldl max x = m := by simpa [npMax] using h
    subst hm
    constructor
    · rcases foldl_max_mem xs x with h1 | h1
      · rw [h1]; exact List.mem_cons_self _ _
      · exact List.mem_cons_of_mem _ h1
    · intro y hy
      rcases List.mem_cons.mp hy with rfl | hy
      · exact (foldl_max_ge xs _).1
      · exact (foldl_max_ge xs x).2 y hy

theorem npMin_perm {γ : Type} [LinearOrder γ] {l1 l2 : List γ} (h : l1.Perm l2) :
    npMin l1 = npMin l2 := by
  rcases l1 with _ | ⟨x, xs⟩ <;> rcases l2 with _ | ⟨y, ys⟩
  · rfl
  · exact absurd h.length_eq (by simp)
  · exact absurd h.length_eq (by simp)
  · obtain ⟨h1m, h1b⟩ := npMin_spec (x :: xs) _ rfl
    obtain ⟨h2m, h2b⟩ := npMin_spec (y :: ys) _ rfl
    exact congrArg some
      (le_antisymm (h1b _ (h.mem_iff.mpr h2m)) (h2b _ (h.mem_iff.mp h1m)))

theorem npMax_perm {γ : Type} [LinearOrder γ] {l1 l2 : List γ} (h : l1.Perm l2) :
    npMax l1 = npMax l2 := by
  rcases l1 with _ | ⟨x, xs⟩ <;> rcases l2 with _ | ⟨y, ys⟩
  · rfl
  · exact absurd h.length_eq (by simp)
  · exact absurd h.length_eq (by simp)
  · obtain ⟨h1m, h1b⟩ := npMax_spec (x :: xs) _ rfl
    obtain ⟨h2m, h2b⟩ := npMax_spec (y :: ys) _ rfl
    exact congrArg some
      (le_antisymm (h2b _ (h.mem_iff.mp h1m)) (h1b _ (h.mem_iff.mpr h2m)))

theorem npMean_perm {γ : Type} [LinearOrderedField γ] {l1 l2 : List γ}
    (h : l1.Perm l2) : npMean l1 = npMean l2 := by
  unfold npMean
  rw [h.sum_eq, h.length_eq]

theorem npStd_perm {γ : Type} [LinearOrderedField γ] (sq : γ → γ) {l1 l2 : List γ}
    (h : l1.Perm l2) : npStd sq l1 = npStd sq l2 := by
  unfold npStd
  rw [npMean_perm h, h.length_eq, List.Perm.sum_eq (h.map _)]

theorem mkSummary_spec {γ : Type} [LinearOrderedField γ] (sq : γ → γ)
    (k : Int × Int × Int) (p : DRow γ) (others : List (DRow γ)) (s : DSum γ)
    (h : mkSummary sq k p others = some s) :
    s.gameId = k.1 ∧ s.playId = k.2.1 ∧ s.frameId = k.2.2 ∧ s.nflId = p.nflId ∧
    npMin (others.map (distance sq p)) = some s.min_distance ∧
    npMax (others.map (distance sq p)) = some s.max_distance ∧
    s.mean_distance = npMean (others.map (distance sq p)) ∧
    s.std_distance = npStd sq (others.map (distance sq p)) := by
  simp only [mkSummary] at h
  cases hmn : npMin (others.map (distance sq p)) with
  | none => rw [hmn] at h; simp at h
  | some mn =>
    cases hmx : npMax (others.map (distance sq p)) with
    | none => rw [hmn, hmx] at h; simp at h
    | some mx =>
      rw [hmn, hmx] at h
      simp only [Option.some.injEq] at h
      subst h
      exact ⟨rfl, rfl, rfl, rfl, rfl, rfl, rfl, rfl⟩

theorem mkSummary_perm {γ : Type} [LinearOrderedField γ] (sq : γ → γ)
    (k : Int × Int × Int) (p : DRow γ) {l1 l2 : List (DRow γ)} (h : l1.Perm l2) :
    mkSummary sq k p l1 = mkSummary sq k p l2 := by
  have hds : (l1.map (distance sq p)).Perm (l2.map (distance sq p)) := h.map _
  simp only [mkSummary]
  rw [npMin_perm hds, npMax_perm hds, npMean_perm hds, npStd_perm sq hds]

theorem rowsFor_spec {γ : Type} [LinearOrderedField γ] (sq : γ → γ)
    (k : Int × Int × Int) :
    ∀ (rest prev : List (DRow γ)), 2 ≤ prev.length + rest.length →
    ∃ l, rowsFor sq k prev rest = some l ∧ l.length = rest.length ∧
      ∀ (i : Nat) (h1 : i < l.length) (h2 : i < rest.length),
        mkSummary sq k (rest.get ⟨i, h2⟩) (prev ++ rest.eraseIdx i) =
          some (l.get ⟨i, h1⟩) := by
  intro rest
  induction rest with
  | nil =>
    intro prev _
    exact ⟨[], rfl, rfl, fun i h1 h2 => absurd h2 (Nat.not_lt_zero i)⟩
  | cons p rs ih =>
    intro prev htot
    have htot2 : 2 ≤ prev.length + rs.length + 1 := by
      simp only [List.length_cons] at htot
      omega
    obtain ⟨s, hs⟩ : ∃ s, mkSummary sq k p (prev ++ rs) = some s := by
      have hne : prev ++ rs ≠ [] := by
        intro hnil
        have hlen := congrArg List.length hnil
        simp only [List.length_append, List.length_nil] at hlen
        omega
      rcases hpr : prev ++ rs with _ | ⟨q, qs⟩
      · exact absurd hpr hne
      · exact ⟨_, rfl⟩
    obtain ⟨l2, hl2, hlen2, hidx2⟩ := ih (prev ++ [p]) (by
      simp only [List.length_append, List.length_cons, List.length_nil]
      omega)
    refine ⟨s :: l2, ?_, by simp [hlen2], ?_⟩
    · show (match mkSummary sq k p (prev ++ rs), rowsFor sq k (prev ++ [p]) rs with
        | some s, some ss => some (s :: ss)
        | _, _ => none) = some (s :: l2)
      rw [hs, hl2]
    · intro i h1 h2
      cases i with
      | zero => simpa using hs
      | succ j =>
        have h2j : j < rs.length := by simpa using h2
        have h1j : j < l2.length := by simpa using h1
        have hj := hidx2 j h1j h2j
        have harr : (prev ++ [p]) ++ rs.eraseIdx j = prev ++ (p :: rs).eraseIdx (j + 1) := by
          simp [List.eraseIdx]
        rw [harr] at hj
        simpa using hj

theorem rowsFor_mem {γ : Type} [LinearOrderedField γ] (sq : γ → γ)
    (k : Int × Int × Int) :
    ∀ (rest prev : List (DRow γ)) (l : List (DSum γ)) (s : DSum γ),
      rowsFor sq k prev rest = some l → s ∈ l →
      ∃ (p : DRow γ) (others : List (DRow γ)), mkSummary sq k p others = some s := by
  intro rest
  induction rest with
  | nil =>
    intro prev l s hl hs
    simp only [rowsFor, Option.some.injEq] at hl
    subst hl
    simp at hs
  | cons p rs ih =>
    intro prev l s hl hs
    simp only [rowsFor] at hl
    cases hm : mkSummary sq k p (prev ++ rs) with
    | none => rw [hm] at hl; simp at hl
    | some s0 =>
      cases hrec : rowsFor sq k (prev ++ [p]) rs with
      | none => rw [hm, hrec] at hl; simp at hl
      | some l2 =>
        rw [hm, hrec] at hl
        simp only [Option.some.injEq] at hl
        subst hl
        rcases List.mem_cons.mp hs with h | h
        · exact ⟨p, prev ++ rs, h ▸ hm⟩
        · exact ih (prev ++ [p]) l2 s hrec h

theorem calcGroups_isSome {γ : Type} [LinearOrderedField γ] (sq : γ → γ)
    (df : List (DRow γ)) :
    ∀ ks : List (Int × Int × Int), (∀ k ∈ ks, 2 ≤ (groupOf df k).length) →
    ∃ out, calcGroups sq df ks = some out := by
  intro ks
  induction ks with
  | nil => exact fun _ => ⟨[], rfl⟩
  | cons k ks ih =>
    intro hall
    obtain ⟨g, hg, -, -⟩ := rowsFor_spec sq k (groupOf df k) []
      (by simpa using hall k (List.mem_cons_self _ _))
    obtain ⟨rest, hrest⟩ := ih (fun k2 hk2 => hall k2 (List.mem_cons_of_mem _ hk2))
    refine ⟨g ++ rest, ?_⟩
    show (match rowsFor sq k [] (groupOf df k), calcGroups sq df ks with
      | some g, some rest => some (g ++ rest)
      | _, _ => none) = some (g ++ rest)
    rw [hg, hrest]

theorem calcGroups_mem {γ : Type} [LinearOrderedField γ] (sq : γ → γ)
    (df : List (DRow γ)) :
    ∀ (ks : List (Int × Int × Int)) (out : List (DSum γ)) (s : DSum γ),
      calcGroups sq df ks = some out → s ∈ out →
      ∃ (k : Int × Int × Int) (p : DRow γ) (others : List (DRow γ)),
        mkSummary sq k p others = some s := by
  intro ks
  induction ks with
  | nil =>
    intro out s hout hs
    simp only [calcGroups, Option.some.injEq] at hout
    subst hout
    simp at hs
  | cons k ks ih =>
    intro out s hout hs
    simp only [calcGroups] at hout
    cases hg : rowsFor sq k [] (groupOf df k) with
    | none => rw [hg] at hout; simp at hout
    | some g =>
      cases hrest : calcGroups sq df ks with
      | none => rw [hg, hrest] at hout; simp at hout
      | some rest =>
        rw [hg, hrest] at hout
        simp only [Option.some.injEq] at hout
        subst hout
        rcases List.mem_append.mp hs with h | h
        · obtain ⟨p, others, hmk⟩ := rowsFor_mem sq k (groupOf df k) [] g s hg h
          exact ⟨k, p, others, hmk⟩
        · exact ih rest s hrest h

theorem mul_length_le_sum {γ : Type} [LinearOrderedField γ] (l : List γ) (m : γ)
    (h : ∀ y ∈ l, m ≤ y) : m * (l.length : γ) ≤ l.sum := by
  induction l with
  | nil => simp
  | cons a as ih =>
    have h1 : m ≤ a := h a (List.mem_cons_self _ _)
    have h2 := ih (fun y hy => h y (List.mem_cons_of_mem _ hy))
    simp only [List.sum_cons, List.length_cons, Nat.cast_add, Nat.cast_one]
    have hexp : m * ((as.length : γ) + 1) = m * (as.length : γ) + m := by ring
    rw [hexp]
    linarith

theorem sum_le_mul_length {γ : Type} [LinearOrderedField γ] (l : List γ) (m : γ)
    (h : ∀ y ∈ l, y ≤ m) : l.sum ≤ m * (l.length : γ) := by
  induction l with
  | nil => simp
  | cons a as ih =>
    have h1 : a ≤ m := h a (List.mem_cons_self _ _)
    have h2 := ih (fun y hy => h y (List.mem_cons_of_mem _ hy))
    simp only [List.sum_cons, List.length_cons, Nat.cast_add, Nat.cast_one]
    have hexp : m * ((as.length : γ) + 1) = m * (as.length : γ) + m := by ring
    rw [hexp]
    linarith

theorem le_npMean {γ : Type} [LinearOrderedField γ] (l : List γ) (m : γ)
    (hne : l ≠ []) (h : ∀ y ∈ l, m ≤ y) : m ≤ npMean l := by
  have hl : (0 : γ) < (l.length : γ) := by
    exact_mod_cast List.length_pos.mpr hne
  rw [npMean, le_div_iff₀ hl]
  exact mul_length_le_sum l m h

theorem npMean_le {γ : Type} [LinearOrderedField γ] (l : List γ) (m : γ)
    (hne : l ≠ []) (h : ∀ y ∈ l, y ≤ m) : npMean l ≤ m := by
  have hl : (0 : γ) < (l.length : γ) := by
    exact_mod_cast List.length_pos.mpr hne
  rw [npMean, div_le_iff₀ hl]
  exact sum_le_mul_length l m h

theorem mkSummary_bounds (k : Int × Int × Int) (p : DRow ℝ)
    (others : List (DRow ℝ)) (s : DSum ℝ)
    (h : mkSummary Real.sqrt k p others = some s) :
    s.min_distance ≤ s.mean_distance ∧ s.mean_distance ≤ s.max_distance ∧
    0 ≤ s.std_distance := by
  obtain ⟨-, -, -, -, hmn, hmx, hmean, hstd⟩ := mkSummary_spec Real.sqrt k p others s h
  have hne : others.map (distance Real.sqrt p) ≠ [] := by
    intro hnil
    rw [hnil] at hmn
    simp [npMin] at hmn
  obtain ⟨hm1, hb1⟩ := npMin_spec _ _ hmn
  obtain ⟨hm2, hb2⟩ := npMax_spec _ _ hmx
  refine ⟨?_, ?_, ?_⟩
  · rw [hmean]
    exact le_npMean _ _ hne hb1
  · rw [hmean]
    exact npMean_le _ _ hne hb2
  · rw [hstd]
    exact Real.sqrt_nonneg _

/-! ## Group key lemmas -/

theorem uniqueFirst_mem {β : Type} [DecidableEq β] :
    ∀ (l seen : List β) (x : β), x ∈ uniqueFirst seen l ↔ x ∈ l ∧ x ∉ seen := by
  intro l
  induction l with
  | nil => simp [uniqueFirst]
  | cons a as ih =>
    intro seen x
    simp only [uniqueFirst]
    by_cases ha : a ∈ seen
    · rw [if_pos ha, ih]
      constructor
      · rintro ⟨hx, hns⟩
        exact ⟨List.mem_cons_of_mem _ hx, hns⟩
      · rintro ⟨hx, hns⟩
        rcases List.mem_cons.mp hx with h | h
        · exact absurd (h ▸ ha) hns
        · exact ⟨h, hns⟩
    · rw [if_neg ha]
      constructor
      · intro hx
        rcases List.mem_cons.mp hx with h | h
        · subst h
          exact ⟨List.mem_cons_self _ _, ha⟩
        · obtain ⟨h1, h2⟩ := (ih (a :: seen) x).mp h
          exact ⟨List.mem_cons_of_mem _ h1,
            fun hc => h2 (List.mem_cons_of_mem _ hc)⟩
      · rintro ⟨hx, hns⟩
        rcases List.mem_cons.mp hx with h | h
        · subst h
          exact List.mem_cons_self _ _
        · by_cases hxa : x = a
          · subst hxa
            exact List.mem_cons_self _ _
          · refine List.mem_cons_of_mem _ ((ih (a :: seen) x).mpr ⟨h, ?_⟩)
            simp [List.mem_cons, hxa, hns]

theorem insertKey_mem (a : Int × Int × Int) (l : List (Int × Int × Int))
    (x : Int × Int × Int) : x ∈ insertKey a l ↔ x = a ∨ x ∈ l := by
  induction l with
  | nil => simp [insertKey]
  | cons b bs ih =>
    simp only [insertKey]
    by_cases h : keyLe a b
    · rw [if_pos h]
      simp [List.mem_cons]
    · rw [if_neg h]
      simp only [List.mem_cons, ih]
      tauto

theorem sortKeys_mem (l : List (Int × Int × Int)) (x : Int × Int × Int) :
    x ∈ sortKeys l ↔ x ∈ l := by
  induction l with
  | nil => simp [sortKeys]
  | cons a as ih => simp [sortKeys, insertKey_mem, ih, List.mem_cons]

theorem groupKeys_mem {γ : Type} [LinearOrderedField γ] (df : List (DRow γ))
    (k : Int × Int × Int) : k ∈ groupKeys df ↔ ∃ r ∈ df, keyOf r = k := by
  simp [groupKeys, sortKeys_mem, pdUnique, uniqueFirst_mem, List.mem_map]

/-! ## Distance engine claim theorems -/

/-- Claim C1 (code evidence): on a group containing exactly one player the
distance list is empty, `np.min` raises, and the whole computation aborts:
no missing statistics are emitted for the player. -/
theorem singleton_group_distance_failure :
    calculate_player_distances Real.sqrt
      [{ gameId := 1, playId := 1, frameId := 1, nflId := 10, x := 0, y := 0 }] =
      none := rfl

/-- Claim C3 counterexample: a table holding a two-player group and a
singleton group.  The two-player group satisfies the claim's hypothesis,
yet the engine raises on the singleton group's empty distance list and
emits no row at all, so no row exists for the two-player group's players. -/
theorem distance_engine_fails_with_singleton_group_present :
    (groupOf (α := ℝ)
        [{ gameId := 1, playId := 1, frameId := 1, nflId := 10, x := 0, y := 0 },
         { gameId := 1, playId := 1, frameId := 1, nflId := 11, x := 3, y := 4 },
         { gameId := 1, playId := 1, frameId := 2, nflId := 12, x := 0, y := 0 }]
        (1, 1, 1)).length = 2 ∧
    calculate_player_distances Real.sqrt
      [{ gameId := 1, playId := 1, frameId := 1, nflId := 10, x := 0, y := 0 },
       { gameId := 1, playId := 1, frameId := 1, nflId := 11, x := 3, y := 4 },
       { gameId := 1, playId := 1, frameId := 2, nflId := 12, x := 0, y := 0 }] =
      none := ⟨rfl, rfl⟩

/-- Claim C3 (amended): for every tracking table in which every group keyed
by (gameId, playId, frameId) holds at least two players, the engine
succeeds, the group keys are exactly the keys occurring in the table, and
for every group it emits exactly one summary row per player: the row at
position i of the group carries the group key and the player identifier and
its four statistics are the minimum, maximum, arithmetic mean and
population standard deviation of the multiset of distances from player i to
the other group members. -/
theorem distance_engine_stats_correct (df : List (DRow ℝ))
    (hall : ∀ k ∈ groupKeys df, 2 ≤ (groupOf df k).length) :
    (∀ k : Int × Int × Int, k ∈ groupKeys df ↔ ∃ r ∈ df, keyOf r = k) ∧
    ∃ out, calculate_player_distances Real.sqrt df = some out ∧
      ∀ k ∈ groupKeys df, ∃ gout,
        rowsFor Real.sqrt k [] (groupOf df k) = some gout ∧
        gout.length = (groupOf df k).length ∧
        ∀ (i : Nat) (h1 : i < gout.length) (h2 : i < (groupOf df k).length),
          SpecSummary k ((groupOf df k).get ⟨i, h2⟩)
            (specDistances (groupOf df k) i h2) (gout.get ⟨i, h1⟩) := by
  refine ⟨groupKeys_mem df, ?_⟩
  obtain ⟨out, hout⟩ := calcGroups_isSome Real.sqrt df (groupKeys df) hall
  refine ⟨out, hout, ?_⟩
  intro k hk
  obtain ⟨gout, hg, hlen, hidx⟩ := rowsFor_spec Real.sqrt k (groupOf df k) []
    (by simpa using hall k hk)
  refine ⟨gout, hg, hlen, ?_⟩
  intro i h1 h2
  have hmk := hidx i h1 h2
  rw [List.nil_append] at hmk
  obtain ⟨e1, e2, e3, e4, hmn, hmx, hmean, hstd⟩ :=
    mkSummary_spec Real.sqrt k _ _ _ hmk
  obtain ⟨hm1, hb1⟩ := npMin_spec _ _ hmn
  obtain ⟨hm2, hb2⟩ := npMax_spec _ _ hmx
  refine ⟨e1, e2, e3, e4, ?_, ?_, ?_, ?_, ?_, ?_⟩
  · simpa [specDistances, Multiset.mem_coe] using hm1
  · intro d hd
    exact hb1 d (by simpa [specDistances, Multiset.mem_coe] using hd)
  · simpa [specDistances, Multiset.mem_coe] using hm2
  · intro d hd
    exact hb2 d (by simpa [specDistances, Multiset.mem_coe] using hd)
  · rw [hmean, npMean]
    simp [specDistances, Multiset.sum_coe, Multiset.coe_card]
  · rw [hstd, npStd, npMean]
    simp [specDistances, Multiset.sum_coe, Multiset.coe_card, Multiset.map_coe]

/-- Claim C3 witness: the amended statement applied to the two-player
fixture table. -/
theorem distance_engine_stats_correct_witness :
    (∀ k : Int × Int × Int, k ∈ groupKeys dfW ↔ ∃ r ∈ dfW, keyOf r = k) ∧
    ∃ out, calculate_player_distances Real.sqrt dfW = some out ∧
      ∀ k ∈ groupKeys dfW, ∃ gout,
        rowsFor Real.sqrt k [] (groupOf dfW k) = some gout ∧
        gout.length = (groupOf dfW k).length ∧
        ∀ (i : Nat) (h1 : i < gout.length) (h2 : i < (groupOf dfW k).length),
          SpecSummary k ((groupOf dfW k).get ⟨i, h2⟩)
            (specDistances (groupOf dfW k) i h2) (gout.get ⟨i, h1⟩) :=
  distance_engine_stats_correct dfW (by
    intro k hk
    have hkeys : groupKeys dfW = [(1, 1, 1)] := rfl
    rw [hkeys] at hk
    have hk1 : k = (1, 1, 1) := List.mem_singleton.mp hk
    subst hk1
    show 2 ≤ (groupOf dfW (1, 1, 1)).length
    exact le_rfl)

/-- Claim C7: every emitted summary row satisfies that its minimum distance
is at most its mean distance, its mean distance at most its maximum
distance, and its standard deviation is nonnegative; and the statistics
computed for a player are invariant under reordering of the other rows, so
they are a deterministic, row-order independent function of the group's
coordinates. -/
theorem distance_stats_bounds_and_order_invariance :
    (∀ (df : List (DRow ℝ)) (out : List (DSum ℝ)) (row : DSum ℝ),
      calculate_player_distances Real.sqrt df = some out → row ∈ out →
      row.min_distance ≤ row.mean_distance ∧
      row.mean_distance ≤ row.max_distance ∧ 0 ≤ row.std_distance) ∧
    (∀ (k : Int × Int × Int) (p : DRow ℝ) (l1 l2 : List (DRow ℝ)), l1.Perm l2 →
      mkSummary Real.sqrt k p l1 = mkSummary Real.sqrt k p l2) := by
  constructor
  · intro df out row hout hrow
    obtain ⟨k, p, others, hmk⟩ :=
      calcGroups_mem Real.sqrt df (groupKeys df) out row hout hrow
    exact mkSummary_bounds k p others row hmk
  · intro k p l1 l2 h
    exact mkSummary_perm Real.sqrt k p h

/-- Claim C7 witness: the bounds applied to every row of the engine's output
on the fixture table. -/
theorem distance_stats_bounds_and_order_invariance_witness :
    ∃ out, calculate_player_distances Real.sqrt dfW = some out ∧
      ∀ row ∈ out,
        row.min_distance ≤ row.mean_distance ∧
        row.mean_distance ≤ row.max_distance ∧ 0 ≤ row.std_distance := by
  obtain ⟨out, hout⟩ := calcGroups_isSome Real.sqrt dfW (groupKeys dfW) (by
    intro k hk
    have hkeys : groupKeys dfW = [(1, 1, 1)] := rfl
    rw [hkeys] at hk
    have hk1 : k = (1, 1, 1) := List.mem_singleton.mp hk
    subst hk1
    show 2 ≤ (groupOf dfW (1, 1, 1)).length
    exact le_rfl)
  exact ⟨out, hout, fun row hrow =>
    distance_stats_bounds_and_order_invariance.1 dfW out row hout hrow⟩

end DataCleaning
